import Mathlib

/-!
Shallow embedding of `src/jetbrains_sync.py`: the sync-state store
(`load_synced_data` / `save_synced_data`), the version-token extraction of
`parse_jetbrains_page`, `download_file`, `retry_upload`, and the orchestration
in `main`, together with theorems settling the specification's claims.
-/

namespace JetBrainsSync

/-- JSON values as `json.load`/`json.dump` exchange them with the synced-data
file. Objects keep their entry order, as Python dicts do. -/
inductive JsonVal : Type where
  | null : JsonVal
  | bool (b : Bool) : JsonVal
  | num (n : Int) : JsonVal
  | str (s : String) : JsonVal
  | arr (elems : List JsonVal) : JsonVal
  | obj (entries : List (String × JsonVal)) : JsonVal

/-- Python dict lookup `d.get(k)` over ordered entries. -/
def entriesGet (es : List (String × JsonVal)) (k : String) : Option JsonVal :=
  (es.find? (fun e => e.1 == k)).map (fun e => e.2)

/-- Python dict assignment `d[k] = v`: update in place when the key is there,
otherwise append (insertion order preserved). -/
def entriesSet (es : List (String × JsonVal)) (k : String) (v : JsonVal) :
    List (String × JsonVal) :=
  if es.any (fun e => e.1 == k) then
    es.map (fun e => if e.1 == k then (e.1, v) else e)
  else es ++ [(k, v)]

/-- What a state file on disk can hold: a document `json.load` accepts, or
bytes it rejects (a read or parse failure). -/
inductive FileContent : Type where
  | json (j : JsonVal) : FileContent
  | corrupt : FileContent

/-- The three paths the state store touches: `SYNCED_DATA_FILE`, its `.bak`
backup and its `.tmp` temporary. `none` means the path does not exist. -/
structure StateFs : Type where
  primary : Option FileContent
  backup : Option FileContent
  temp : Option FileContent

/-- The empty default `load_synced_data` falls back to. -/
def defaultDoc : JsonVal := .obj [("products", .obj [])]

/-- The function `load_synced_data`: read the primary file when it exists;
when reading or parsing it raises, fall back to the backup file when that
exists and parses; in every other case the empty default. When the primary
file does not exist at all, the backup is never consulted. -/
def load_synced_data (fs : StateFs) : JsonVal :=
  match fs.primary with
  | some (.json j) => j
  | some .corrupt =>
    match fs.backup with
    | some (.json j) => j
    | _ => defaultDoc
  | none => defaultDoc

/-- Which step of `save_synced_data` raises, if any: writing the temporary
file, the rename of the primary to the backup, or the final rename of the
temporary into place. -/
inductive SaveFault : Type where
  | ok : SaveFault
  | writeTmp : SaveFault
  | backupRename : SaveFault
  | finalRename : SaveFault
deriving DecidableEq

/-- The try-block of `save_synced_data`: dump the document to the `.tmp`
file, rotate the primary to `.bak` when the primary exists, then move the
`.tmp` file into place. An `.error` carries the filesystem as it stands at
the point the injected step raised. -/
def save_synced_data_try (fault : SaveFault) (fs : StateFs) (data : JsonVal) :
    Except StateFs StateFs :=
  match fault with
  | .writeTmp => .error { fs with temp := some .corrupt }
  | .backupRename =>
    let fs1 : StateFs := { fs with temp := some (.json data) }
    if fs1.primary.isSome then .error fs1
    else .ok { fs1 with primary := fs1.temp, temp := none }
  | .finalRename =>
    let fs1 : StateFs := { fs with temp := some (.json data) }
    let fs2 : StateFs :=
      if fs1.primary.isSome then { fs1 with backup := fs1.primary, primary := none }
      else fs1
    .error fs2
  | .ok =>
    let fs1 : StateFs := { fs with temp := some (.json data) }
    let fs2 : StateFs :=
      if fs1.primary.isSome then { fs1 with backup := fs1.primary, primary := none }
      else fs1
    .ok { fs2 with primary := fs2.temp, temp := none }

/-- The function `save_synced_data`: the try-block wrapped in the catch-all
handler, which logs, removes the `.tmp` file when present, and returns
normally — the function is total and never raises. -/
def save_synced_data (fault : SaveFault) (fs : StateFs) (data : JsonVal) : StateFs :=
  match save_synced_data_try fault fs data with
  | .ok fs2 => fs2
  | .error fsE => { fsE with temp := none }

/-- Greedy digit consumption, as a `\d+` in `re` consumes: the longest digit
prefix and the remainder. -/
def takeDigits : List Char → List Char × List Char
  | [] => ([], [])
  | c :: cs =>
    if c.isDigit then
      let r := takeDigits cs
      (c :: r.1, r.2)
    else ([], c :: cs)

/-- Match of the pattern of line 66, `\d{4}\.\d+(?:\.\d+)?`, anchored at the
start of the character list: four digits, a dot, one or more digits, and an
optional dot-digits tail, each `\d+` greedy. Returns the matched token. -/
def matchVersionAt (cs : List Char) : Option (List Char) :=
  match cs with
  | a :: b :: c :: d :: dot :: rest =>
    if a.isDigit && b.isDigit && c.isDigit && d.isDigit && (dot == '.') then
      let r := takeDigits rest
      if r.1.isEmpty then none
      else
        let base := a :: b :: c :: d :: '.' :: r.1
        match r.2 with
        | '.' :: rest2 =>
          let r2 := takeDigits rest2
          if r2.1.isEmpty then some base else some (base ++ '.' :: r2.1)
        | _ => some base
    else none
  | _ => none

/-- Behaviour of `re.search`: try the pattern at every position from the left,
the first position that matches wins. -/
def searchVersion : List Char → Option (List Char)
  | [] => none
  | c :: cs =>
    match matchVersionAt (c :: cs) with
    | some m => some m
    | none => searchVersion cs

/-- Lines 66-69 of `parse_jetbrains_page`: extract the version token from the
version heading text, raising (a fatal, non-retried exception) when the
pattern matches nowhere in the text. -/
def extract_version (version_text : String) : Except String String :=
  match searchVersion version_text.data with
  | some m => .ok (String.mk m)
  | none => .error ("cannot extract version: " ++ version_text)

/-- Specification-side reading of the pattern the code accepts: somewhere in
the text stand four digits, a dot and a further digit. -/
def HasYearDotPattern (cs : List Char) : Prop :=
  ∃ pre a b c d e post, cs = pre ++ a :: b :: c :: d :: '.' :: e :: post ∧
    (a.isDigit && b.isDigit && c.isDigit && d.isDigit && e.isDigit) = true

/-- Outcome of one delete-then-upload attempt of `retry_upload`: the upload
call returns the asset, returns a falsy value, or raises — a 422
already-exists conflict, another GitHub error, or any other exception. Every
non-success outcome falls through to the next loop iteration. -/
inductive UploadOutcome : Type where
  | success (asset : Nat) : UploadOutcome
  | falsy : UploadOutcome
  | conflict422 : UploadOutcome
  | githubError : UploadOutcome
  | otherError : UploadOutcome
deriving DecidableEq

/-- Whether the attempt returned an asset. -/
def UploadOutcome.isSuccess : UploadOutcome → Bool
  | .success _ => true
  | _ => false

/-- What a run of `retry_upload` comes to: the returned value, the number of
delete-then-upload attempts made, and the total time slept between them. -/
structure RetryResult : Type where
  result : Option Nat
  attempts : Nat
  sleptTotal : Nat
deriving DecidableEq

/-- The loop of `retry_upload` from attempt index `attempt` on, with
`fuel = RETRY_COUNT - attempt` iterations left; after a failed attempt other
than the last, `time.sleep(RETRY_DELAY)` runs. -/
def retry_upload_go (retryCount retryDelay : Nat) (outcomes : Nat → UploadOutcome) :
    Nat → Nat → RetryResult
  | _, 0 => { result := none, attempts := 0, sleptTotal := 0 }
  | attempt, fuel + 1 =>
    match outcomes attempt with
    | .success a => { result := some a, attempts := 1, sleptTotal := 0 }
    | _ =>
      let delay := if attempt < retryCount - 1 then retryDelay else 0
      let rest := retry_upload_go retryCount retryDelay outcomes (attempt + 1) fuel
      { result := rest.result, attempts := rest.attempts + 1,
        sleptTotal := rest.sleptTotal + delay }

/-- The function `retry_upload`: up to `RETRY_COUNT` delete-then-upload
attempts over the injected per-attempt outcomes; `none` after exhaustion —
the loop falls through and returns rather than raising. -/
def retry_upload (retryCount retryDelay : Nat) (outcomes : Nat → UploadOutcome) :
    RetryResult :=
  retry_upload_go retryCount retryDelay outcomes 0 retryCount

/-- The local working directory as `download_file` and the cleanup loop see
it: file name paired with a content id standing in for the bytes on disk. -/
abbrev Files := List (String × Nat)

/-- Test `os.path.exists` plus read: the content at a path, when present. -/
def Files.get (fs : Files) (p : String) : Option Nat :=
  (List.find? (fun e => e.1 == p) fs).map (fun e => e.2)

/-- Write a file at a path (the path known absent beforehand). -/
def Files.put (fs : Files) (p : String) (v : Nat) : Files := fs ++ [(p, v)]

/-- Call `os.remove`: drop the path. -/
def Files.remove (fs : Files) (p : String) : Files :=
  fs.filter (fun e => !(e.1 == p))

/-- How the fetch-and-write of `download_file` goes for a URL: the whole body
arrives and is written, the request raises before anything is written, or a
mid-stream failure leaves a partly written file behind. -/
inductive DlOutcome : Type where
  | ok (content : Nat) : DlOutcome
  | fetchError : DlOutcome
  | writeError (midContent : Nat) : DlOutcome
deriving DecidableEq

/-- The function `download_file`: return the path at once when a file is
already there (no fetch, nothing written); otherwise fetch the URL (recorded
in the returned list) and stream the body to the path; on any error remove
the partly written file when it exists, then re-raise. Returns the result,
the filesystem afterwards, and the URLs fetched. -/
def download_file (net : String → DlOutcome) (files : Files) (url savePath : String) :
    Except String String × Files × List String :=
  match Files.get files savePath with
  | some _ => (.ok savePath, files, [])
  | none =>
    match net url with
    | .ok c => (.ok savePath, Files.put files savePath c, [url])
    | .fetchError => (.error "download failed", files, [url])
    | .writeError mid =>
      (.error "download failed", Files.remove (Files.put files savePath mid) savePath, [url])

/-- Result of `parse_jetbrains_page`: the version token and the two Linux
download links (line 90-96; a missing link defaults to the empty string). -/
structure PageData : Type where
  version : String
  ultimateUrl : String
  communityUrl : String

/-- Observable side effects of a run of `main`, in order. -/
inductive Event : Type where
  | pageFetch : Event
  | releaseGetOrCreate (tag : String) : Event
  | assetDeleteUpload (assetName : String) : Event
  | artifactFetch (url : String) : Event
  | stateWrite : Event
  | commit (version : String) : Event
  | cleanupRemove (file : String) : Event
deriving DecidableEq

/-- The release-API mutations, artifact fetches, state write and commit: the
effects the skip path must not produce. -/
def Event.isMutation : Event → Bool
  | .releaseGetOrCreate _ => true
  | .assetDeleteUpload _ => true
  | .artifactFetch _ => true
  | .stateWrite => true
  | .commit _ => true
  | _ => false

/-- Call to `os.path.basename` on a URL path: the segment after the last
slash (the whole string when no slash occurs). -/
def basename (s : String) : String :=
  String.mk ((s.data.reverse.takeWhile (fun c => !(c == '/'))).reverse)

/-- Python `f.endswith(".tar.gz")` from the cleanup loop of line 400. -/
def endsWithTarGz (s : String) : Bool :=
  s.data.reverse.take 7 == (String.data ".tar.gz").reverse

/-- Line 312, `synced_data.setdefault("products", {})`: `.error` when the
loaded document is not a dict — that AttributeError stands outside the
try-block and escapes `main`, ending the process with a non-zero status. -/
def setdefaultProducts (doc : JsonVal) : Except String JsonVal :=
  match doc with
  | .obj es =>
    if es.any (fun e => e.1 == "products") then .ok (.obj es)
    else .ok (.obj (es ++ [("products", .obj [])]))
  | _ => .error "AttributeError"

/-- Subscript `synced_data["products"]`; after `setdefault` the key exists. -/
def productsOf (doc : JsonVal) : JsonVal :=
  match doc with
  | .obj es => (entriesGet es "products").getD .null
  | _ => .null

/-- Line 333, `synced_data["products"].get(product_name, {}).get("version")`:
`.error` when a non-dict value meets `.get` (an AttributeError raised inside
the try-block and caught by the handler of line 394). A product with no
record yields `none`, as `.get` on the `{}` default does. -/
def getLastVersion (products : JsonVal) (productName : String) :
    Except String (Option JsonVal) :=
  match products with
  | .obj es =>
    match entriesGet es productName with
    | some (.obj es2) => .ok (entriesGet es2 "version")
    | some _ => .error "AttributeError"
    | none => .ok none
  | _ => .error "AttributeError"

/-- Line 334, `last_version == current_version`: Python string equality; a
missing or non-string stored value compares unequal. -/
def versionMatches (lastVersion : Option JsonVal) (current : String) : Bool :=
  match lastVersion with
  | some (.str s) => s == current
  | _ => false

/-- One edition's part of the record of lines 379-388. -/
def editionRecord (tag assetName : String) (size : Nat) : JsonVal :=
  .obj [("tag", .str tag), ("asset", .str assetName), ("size", .num size)]

/-- The record assigned at lines 376-389. -/
def syncRecord (version now ultTag ultAsset : String) (ultSize : Nat)
    (comTag comAsset : String) (comSize : Nat) : JsonVal :=
  .obj [("version", .str version), ("synced_at", .str now),
        ("ultimate", editionRecord ultTag ultAsset ultSize),
        ("community", editionRecord comTag comAsset comSize)]

/-- Line 376, `synced_data["products"][product_name] = record`. The products
value is a dict here: the lookup of line 333 succeeded earlier on this path. -/
def setProduct (doc : JsonVal) (productName : String) (record : JsonVal) : JsonVal :=
  match doc with
  | .obj es =>
    match (entriesGet es "products").getD .null with
    | .obj ps => .obj (entriesSet es "products" (.obj (entriesSet ps productName record)))
    | _ => doc
  | _ => doc

/-- Everything the environment decides for one run of `main`: the parsed page
(or the exception `parse_jetbrains_page` raises), the state files, the working
directory, and how each external call goes. -/
structure MainEnv : Type where
  productName : String
  ultimateName : String
  communityName : String
  parseResult : Except String PageData
  initFs : StateFs
  initFiles : Files
  releaseOk : String → Bool
  net : String → DlOutcome
  uploads : String → Nat → UploadOutcome
  retryCount : Nat
  retryDelay : Nat
  saveFault : SaveFault
  gitDirty : Bool
  now : String

/-- What the try-block of `main` (lines 322-392) leaves behind: the working
directory and state files, the trace, the `has_updates` flag, and
`current_version` when it was assigned. Exceptions raised inside the block
are all caught by the handler of line 394, which only logs, so raising and
returning meet again here. -/
structure TryOut : Type where
  files : Files
  fs : StateFs
  trace : List Event
  hasUpdates : Bool
  currentVersion : Option String

/-- The try-block of `main`: parse, compare versions (skip when equal),
then per edition — ultimate first, community second — get-or-create the
release, download the artifact, publish it; finally write the updated record
and save. The record and the save happen whether or not either
`retry_upload` call returned an asset. -/
def mainTry (env : MainEnv) (doc0 : JsonVal) : TryOut :=
  match env.parseResult with
  | .error _ =>
    { files := env.initFiles, fs := env.initFs, trace := [.pageFetch],
      hasUpdates := false, currentVersion := none }
  | .ok pd =>
    match getLastVersion (productsOf doc0) env.productName with
    | .error _ =>
      { files := env.initFiles, fs := env.initFs, trace := [.pageFetch],
        hasUpdates := false, currentVersion := none }
    | .ok lastVer =>
      if versionMatches lastVer pd.version then
        { files := env.initFiles, fs := env.initFs, trace := [.pageFetch],
          hasUpdates := false, currentVersion := none }
      else
        let v := pd.version
        let ultTag := env.ultimateName ++ "-" ++ v
        let tr1 := [Event.pageFetch, Event.releaseGetOrCreate ultTag]
        if !env.releaseOk ultTag then
          { files := env.initFiles, fs := env.initFs, trace := tr1,
            hasUpdates := true, currentVersion := some v }
        else
          let ultAsset := basename pd.ultimateUrl
          let dl1 := download_file env.net env.initFiles pd.ultimateUrl ultAsset
          let tr2 := tr1 ++ dl1.2.2.map Event.artifactFetch
          match dl1.1 with
          | .error _ =>
            { files := dl1.2.1, fs := env.initFs, trace := tr2,
              hasUpdates := true, currentVersion := some v }
          | .ok _ =>
            let files1 := dl1.2.1
            let _ultimateUpload :=
              retry_upload env.retryCount env.retryDelay (env.uploads ultAsset)
            let tr3 := tr2 ++ [Event.assetDeleteUpload ultAsset]
            let comTag := env.communityName ++ "-" ++ v
            let tr4 := tr3 ++ [Event.releaseGetOrCreate comTag]
            if !env.releaseOk comTag then
              { files := files1, fs := env.initFs, trace := tr4,
                hasUpdates := true, currentVersion := some v }
            else
              let comAsset := basename pd.communityUrl
              let dl2 := download_file env.net files1 pd.communityUrl comAsset
              let tr5 := tr4 ++ dl2.2.2.map Event.artifactFetch
              match dl2.1 with
              | .error _ =>
                { files := dl2.2.1, fs := env.initFs, trace := tr5,
                  hasUpdates := true, currentVersion := some v }
              | .ok _ =>
                let files2 := dl2.2.1
                let _communityUpload :=
                  retry_upload env.retryCount env.retryDelay (env.uploads comAsset)
                let tr6 := tr5 ++ [Event.assetDeleteUpload comAsset]
                let record := syncRecord v env.now ultTag ultAsset
                  ((Files.get files2 ultAsset).getD 0)
                  comTag comAsset ((Files.get files2 comAsset).getD 0)
                let doc1 := setProduct doc0 env.productName record
                let fs1 := save_synced_data env.saveFault env.initFs doc1
                { files := files2, fs := fs1, trace := tr6 ++ [Event.stateWrite],
                  hasUpdates := true, currentVersion := some v }

/-- What a whole process run leaves behind: the exit status of the Python
interpreter, the trace, the state files, the working directory. -/
structure MainResult : Type where
  exitCode : Nat
  trace : List Event
  fs : StateFs
  files : Files

/-- The function `main` plus the module guard of lines 412-413: load the state,
`setdefault` (outside the try-block — a non-dict document raises out of
`main` and the interpreter exits 1), run the try-block whose handler catches
every exception, then the finally-block: remove the `*.tar.gz` files in the
working directory and, when `has_updates` was set, run `commit_and_push`
(which itself catches every exception, and commits only when `git status`
reports the state files changed). Every handled path returns from `main`, so
the interpreter exits 0 there. -/
def mainRun (env : MainEnv) : MainResult :=
  let doc := load_synced_data env.initFs
  match setdefaultProducts doc with
  | .error _ =>
    { exitCode := 1, trace := [], fs := env.initFs, files := env.initFiles }
  | .ok doc0 =>
    let t := mainTry env doc0
    let gzEvents := (t.files.filter (fun e => endsWithTarGz e.1)).map
      (fun e => Event.cleanupRemove e.1)
    let files1 := t.files.filter (fun e => !endsWithTarGz e.1)
    let trC := t.trace ++ gzEvents
    let trF :=
      if t.hasUpdates then
        if env.gitDirty then trC ++ [Event.commit (t.currentVersion.getD "")] else trC
      else trC
    { exitCode := 0, trace := trF, fs := t.fs, files := files1 }

/-- Whether an embedded call returned rather than raised. -/
def exceptOk {ε α : Type} : Except ε α → Bool
  | .ok _ => true
  | .error _ => false

/-- A stored document holding version 2024.1 for the product. -/
def docWith20241 : JsonVal :=
  .obj [("products", .obj [("Idea Ultimate", .obj [("version", .str "2024.1")])])]

/-- A run in which the page reports 2024.2, every release and download call
succeeds, the ultimate upload succeeds, and every community upload attempt
raises — so `retry_upload` exhausts its retries and returns `none` for the
community edition. -/
def envUploadFail : MainEnv :=
  { productName := "Idea Ultimate"
    ultimateName := "idea-ultimate"
    communityName := "idea-community"
    parseResult := .ok
      { version := "2024.2"
        ultimateUrl := "https://dl/u.tar.gz"
        communityUrl := "https://dl/c.tar.gz" }
    initFs := { primary := some (.json docWith20241), backup := none, temp := none }
    initFiles := []
    releaseOk := fun _ => true
    net := fun _ => .ok 7
    uploads := fun asset _ => if asset == "u.tar.gz" then .success 1 else .otherError
    retryCount := 3
    retryDelay := 10
    saveFault := .ok
    gitDirty := true
    now := "2026-10-12T00:00:00" }

/-- A run in which `parse_jetbrains_page` raises and nothing recovers that
error: the handler of line 394 logs it and `main` returns. -/
def envParseFail : MainEnv :=
  { productName := "Idea Ultimate"
    ultimateName := "idea-ultimate"
    communityName := "idea-community"
    parseResult := .error "ParseError"
    initFs := { primary := none, backup := none, temp := none }
    initFiles := []
    releaseOk := fun _ => true
    net := fun _ => .ok 7
    uploads := fun _ _ => .otherError
    retryCount := 3
    retryDelay := 10
    saveFault := .ok
    gitDirty := false
    now := "2026-10-12T00:00:00" }

/-- A run in which the stored version equals the freshly parsed version, with
a leftover archive in the working directory for the cleanup loop to find. -/
def envSkip : MainEnv :=
  { productName := "Idea Ultimate"
    ultimateName := "idea-ultimate"
    communityName := "idea-community"
    parseResult := .ok
      { version := "2024.1"
        ultimateUrl := "https://dl/u.tar.gz"
        communityUrl := "https://dl/c.tar.gz" }
    initFs := { primary := some (.json docWith20241), backup := none, temp := none }
    initFiles := [("leftover.tar.gz", 3)]
    releaseOk := fun _ => true
    net := fun _ => .ok 7
    uploads := fun _ _ => .otherError
    retryCount := 3
    retryDelay := 10
    saveFault := .ok
    gitDirty := true
    now := "2026-10-12T00:00:00" }

theorem takeDigits_cons_digit (e : Char) (cs : List Char) (he : e.isDigit = true) :
    takeDigits (e :: cs) = (e :: (takeDigits cs).1, (takeDigits cs).2) := by
  simp [takeDigits, he]

theorem takeDigits_fst_ne_nil_iff (cs : List Char) :
    (takeDigits cs).1 ≠ [] ↔ ∃ e post, cs = e :: post ∧ e.isDigit = true := by
  cases cs with
  | nil => simp [takeDigits]
  | cons c cs =>
    by_cases h : c.isDigit
    · simp [takeDigits, h]
    · simp only [takeDigits, h]
      simp [h]

theorem matchVersionAt_isSome_iff (cs : List Char) :
    (matchVersionAt cs).isSome = true ↔
      ∃ a b c d e post, cs = a :: b :: c :: d :: '.' :: e :: post ∧
        (a.isDigit && b.isDigit && c.isDigit && d.isDigit && e.isDigit) = true := by
  constructor
  · intro h
    match cs with
    | [] => simp [matchVersionAt] at h
    | [a] => simp [matchVersionAt] at h
    | [a, b] => simp [matchVersionAt] at h
    | [a, b, c] => simp [matchVersionAt] at h
    | [a, b, c, d] => simp [matchVersionAt] at h
    | a :: b :: c :: d :: dot :: rest =>
      by_cases hc : (a.isDigit && b.isDigit && c.isDigit && d.isDigit && (dot == '.')) = true
      · have hdot : dot = '.' := by
          have := hc
          simp only [Bool.and_eq_true, beq_iff_eq] at this
          exact this.2
        subst hdot
        by_cases hr : (takeDigits rest).1.isEmpty = true
        · simp [matchVersionAt, hc, hr] at h
        · have : (takeDigits rest).1 ≠ [] := by
            intro hnil; rw [hnil] at hr; simp at hr
          obtain ⟨e, post, hrest, he⟩ := (takeDigits_fst_ne_nil_iff rest).mp this
          refine ⟨a, b, c, d, e, post, by rw [hrest], ?_⟩
          simp only [Bool.and_eq_true, beq_iff_eq] at hc
          simp [hc.1.1.1.1, hc.1.1.1.2, hc.1.1.2, hc.1.2, he]
      · simp [matchVersionAt, hc] at h
  · rintro ⟨a, b, c, d, e, post, hcs, hd⟩
    subst hcs
    simp only [Bool.and_eq_true] at hd
    have hcond : (a.isDigit && b.isDigit && c.isDigit && d.isDigit && ('.' == '.')) = true := by
      simp [hd.1.1.1.1, hd.1.1.1.2, hd.1.1.2, hd.1.2]
    have htd : takeDigits (e :: post) = (e :: (takeDigits post).1, (takeDigits post).2) :=
      takeDigits_cons_digit e post hd.2
    simp only [matchVersionAt, hcond, if_true, htd]
    simp only [List.isEmpty_cons, if_false, Bool.false_eq_true]
    split
    · split <;> simp
    · simp

theorem searchVersion_isSome_iff (cs : List Char) :
    (searchVersion cs).isSome = true ↔ HasYearDotPattern cs := by
  induction cs with
  | nil =>
    simp only [searchVersion, Option.isSome_none, HasYearDotPattern]
    constructor
    · intro h; cases h
    · rintro ⟨pre, a, b, c, d, e, post, hcs, _⟩
      exact absurd hcs (by simp)
  | cons x xs ih =>
    constructor
    · intro h
      simp only [searchVersion] at h
      cases hm : matchVersionAt (x :: xs) with
      | some m =>
        obtain ⟨a, b, c, d, e, post, hcs, hd⟩ :=
          (matchVersionAt_isSome_iff (x :: xs)).mp (by simp [hm])
        exact ⟨[], a, b, c, d, e, post, by simpa using hcs, hd⟩
      | none =>
        rw [hm] at h
        obtain ⟨pre, a, b, c, d, e, post, hcs, hd⟩ := ih.mp h
        exact ⟨x :: pre, a, b, c, d, e, post, by simp [hcs], hd⟩
    · rintro ⟨pre, a, b, c, d, e, post, hcs, hd⟩
      simp only [searchVersion]
      cases hm : matchVersionAt (x :: xs) with
      | some m => simp
      | none =>
        cases pre with
        | nil =>
          exfalso
          have : (matchVersionAt (x :: xs)).isSome = true :=
            (matchVersionAt_isSome_iff (x :: xs)).mpr
              ⟨a, b, c, d, e, post, by simpa using hcs, hd⟩
          rw [hm] at this; cases this
        | cons y pre =>
          have hx : x :: xs = y :: (pre ++ a :: b :: c :: d :: '.' :: e :: post) := by
            simpa using hcs
          have hxs : xs = pre ++ a :: b :: c :: d :: '.' :: e :: post :=
            (List.cons_eq_cons.mp hx).2
          exact ih.mpr ⟨pre, a, b, c, d, e, post, hxs, hd⟩

theorem retry_upload_go_fail (retryCount retryDelay : Nat)
    (outcomes : Nat → UploadOutcome) :
    ∀ fuel attempt, attempt + fuel = retryCount →
    (∀ i, attempt ≤ i → i < retryCount → (outcomes i).isSuccess = false) →
    retry_upload_go retryCount retryDelay outcomes attempt fuel =
      { result := none, attempts := fuel, sleptTotal := (fuel - 1) * retryDelay } := by
  intro fuel
  induction fuel with
  | zero => intro attempt h hf; simp [retry_upload_go]
  | succ n ih =>
    intro attempt h hf
    have h1 : (outcomes attempt).isSuccess = false :=
      hf attempt le_rfl (by omega)
    have hrec : retry_upload_go retryCount retryDelay outcomes (attempt + 1) n =
        { result := none, attempts := n, sleptTotal := (n - 1) * retryDelay } := by
      apply ih (attempt + 1) (by omega)
      intro i hi1 hi2
      exact hf i (by omega) hi2
    have hdelay : (if attempt < retryCount - 1 then retryDelay else 0) =
        if n = 0 then 0 else retryDelay := by
      rcases Nat.eq_zero_or_pos n with hn | hn
      · subst hn
        have : ¬ attempt < retryCount - 1 := by omega
        simp [this]
      · have : attempt < retryCount - 1 := by omega
        simp [this, Nat.pos_iff_ne_zero.mp hn]
    have hsum : (n - 1) * retryDelay + (if n = 0 then 0 else retryDelay) =
        (n + 1 - 1) * retryDelay := by
      cases n with
      | zero => simp
      | succ m => simp [Nat.succ_sub_one, Nat.succ_mul]
    cases ho : outcomes attempt with
    | success a => rw [ho] at h1; simp [UploadOutcome.isSuccess] at h1
    | falsy => simp [retry_upload_go, ho, hrec, hdelay, hsum]
    | conflict422 => simp [retry_upload_go, ho, hrec, hdelay, hsum]
    | githubError => simp [retry_upload_go, ho, hrec, hdelay, hsum]
    | otherError => simp [retry_upload_go, ho, hrec, hdelay, hsum]

theorem retry_upload_go_success (retryCount retryDelay : Nat)
    (outcomes : Nat → UploadOutcome) (k : Nat) (a : Nat) :
    ∀ fuel attempt, attempt + fuel = retryCount → attempt ≤ k → k < retryCount →
    (∀ i, attempt ≤ i → i < k → (outcomes i).isSuccess = false) →
    outcomes k = .success a →
    (retry_upload_go retryCount retryDelay outcomes attempt fuel).result = some a := by
  intro fuel
  induction fuel with
  | zero => intro attempt h hak hk hf hs; omega
  | succ n ih =>
    intro attempt h hak hk hf hs
    rcases Nat.eq_or_lt_of_le hak with heq | hlt
    · subst heq
      simp [retry_upload_go, hs]
    · have h1 : (outcomes attempt).isSuccess = false :=
        hf attempt le_rfl hlt
      have hrec := ih (attempt + 1) (by omega) (by omega) hk
        (fun i hi1 hi2 => hf i (by omega) hi2) hs
      cases ho : outcomes attempt with
      | success b => rw [ho] at h1; simp [UploadOutcome.isSuccess] at h1
      | falsy => simp [retry_upload_go, ho, hrec]
      | conflict422 => simp [retry_upload_go, ho, hrec]
      | githubError => simp [retry_upload_go, ho, hrec]
      | otherError => simp [retry_upload_go, ho, hrec]

theorem Files.get_remove (fs : Files) (p : String) :
    Files.get (Files.remove fs p) p = none := by
  induction fs with
  | nil => simp [Files.get, Files.remove]
  | cons e t ih =>
    by_cases h : e.1 == p
    · simpa [Files.remove, h] using ih
    · simp only [Files.remove, List.filter] at ih ⊢
      simp only [h, Bool.not_false]
      simp only [Files.get, List.find?] at ih ⊢
      simp [h, ih]

/-- C3 counterexample: the heading text "Version 1.2.3" holds a general
major.minor.patch numeric-dot token, yet the extraction step of
`parse_jetbrains_page` raises on it — the pattern of line 66 demands four
leading digits. -/
theorem c3_counterexample_short_version_raises :
    extract_version "Version 1.2.3" =
      .error "cannot extract version: Version 1.2.3" := rfl

/-- C3 (amended): page parsing recognizes a version token exactly when the
heading text holds four digits, a dot and a further digit — the
year.minor[.patch] pattern `\d{4}\.\d+(?:\.\d+)?` of line 66; a general
major.minor[.patch] token with fewer than four leading digits is not
recognized, and for every heading text without such a pattern the parse
raises a fatal, non-retried error. -/
theorem c3_version_pattern_characterization (s : String) :
    (∃ v, extract_version s = .ok v) ↔ HasYearDotPattern s.data := by
  rw [← searchVersion_isSome_iff]
  unfold extract_version
  cases h : searchVersion s.data with
  | some m => simp
  | none => simp

/-- C3 witness: the characterization applied at a heading carrying a
four-digit version token. -/
theorem c3_version_pattern_witness :
    HasYearDotPattern (String.data "JetBrains 2024.1") :=
  (c3_version_pattern_characterization "JetBrains 2024.1").mp ⟨"2024.1", rfl⟩

/-- C4: on persistent upload failure `retry_upload` makes exactly
`RETRY_COUNT` delete-then-upload attempts, sleeps `RETRY_DELAY` between
consecutive attempts (`RETRY_COUNT - 1` sleeps in total) and returns an
absent result rather than raising; and when an attempt's upload returns the
asset, that asset descriptor is returned. -/
theorem c4_retry_upload_policy (retryCount retryDelay : Nat)
    (outcomes : Nat → UploadOutcome) :
    ((∀ i, i < retryCount → (outcomes i).isSuccess = false) →
      retry_upload retryCount retryDelay outcomes =
        { result := none, attempts := retryCount,
          sleptTotal := (retryCount - 1) * retryDelay }) ∧
    (∀ k a, k < retryCount → (∀ i, i < k → (outcomes i).isSuccess = false) →
      outcomes k = .success a →
      (retry_upload retryCount retryDelay outcomes).result = some a) := by
  constructor
  · intro hf
    exact retry_upload_go_fail retryCount retryDelay outcomes retryCount 0 (by omega)
      (fun i _ hi => hf i hi)
  · intro k a hk hf hs
    exact retry_upload_go_success retryCount retryDelay outcomes k a retryCount 0
      (by omega) (Nat.zero_le k) hk (fun i _ hi => hf i hi) hs

/-- C4 witness: with `RETRY_COUNT = 3` and `RETRY_DELAY = 10`, persistent
failure gives three attempts, twenty seconds slept in total and an absent
result; a first-attempt success returns the asset. -/
theorem c4_retry_upload_witness :
    retry_upload 3 10 (fun _ => UploadOutcome.otherError) =
      { result := none, attempts := 3, sleptTotal := 20 } ∧
    (retry_upload 3 10 (fun _ => UploadOutcome.success 9)).result = some 9 :=
  ⟨(c4_retry_upload_policy 3 10 (fun _ => UploadOutcome.otherError)).1 (by decide),
   (c4_retry_upload_policy 3 10 (fun _ => UploadOutcome.success 9)).2 0 9 (by decide)
     (fun i hi => absurd hi (Nat.not_lt_zero i)) rfl⟩

/-- C5: saving a document and then loading returns that document, for every
prior state of the state files and every document. -/
theorem c5_save_then_load_roundtrip (fs : StateFs) (d : JsonVal) :
    load_synced_data (save_synced_data .ok fs d) = d := by
  cases fs with
  | mk p b t =>
    cases p <;> simp [load_synced_data, save_synced_data, save_synced_data_try]

/-- C6: when the primary state file exists with invalid content, a valid
backup's document is returned by load; when the backup also fails to load
(corrupt or absent), load returns the empty default. -/
theorem c6_load_backup_fallback (fs : StateFs) (j : JsonVal)
    (h : fs.primary = some .corrupt) :
    (fs.backup = some (.json j) → load_synced_data fs = j) ∧
    ((∀ k, fs.backup ≠ some (.json k)) → load_synced_data fs = defaultDoc) := by
  constructor
  · intro hb
    unfold load_synced_data
    rw [h, hb]
  · intro hb
    unfold load_synced_data
    rw [h]
    cases hbk : fs.backup with
    | none => rfl
    | some fc =>
      cases fc with
      | json k => exact absurd hbk (hb k)
      | corrupt => rfl

/-- C6 witness: a corrupt primary beside a valid backup yields the backup's
document; a corrupt primary with no backup yields the empty default. -/
theorem c6_load_backup_witness :
    load_synced_data
      { primary := some .corrupt, backup := some (.json (.num 5)), temp := none } =
        .num 5 ∧
    load_synced_data
      { primary := some .corrupt, backup := none, temp := none } = defaultDoc :=
  ⟨(c6_load_backup_fallback
      { primary := some .corrupt, backup := some (.json (.num 5)), temp := none }
      (.num 5) rfl).1 rfl,
   (c6_load_backup_fallback
      { primary := some .corrupt, backup := none, temp := none }
      (.num 0) rfl).2 (fun _ h => nomatch h)⟩

/-- C8: with a file already at the destination path, `download_file` returns
the path at once — the filesystem (hence the existing file's size and
content) untouched, no URL fetched. -/
theorem c8_download_skips_existing (net : String → DlOutcome) (files : Files)
    (url p : String) (c : Nat) (h : Files.get files p = some c) :
    download_file net files url p = (.ok p, files, []) := by
  unfold download_file
  rw [h]

/-- C8 witness: a pre-existing archive is returned unchanged without a
fetch. -/
theorem c8_download_skips_witness :
    download_file (fun _ => DlOutcome.fetchError) [("a.tar.gz", 42)]
      "https://dl/a.tar.gz" "a.tar.gz" = (.ok "a.tar.gz", [("a.tar.gz", 42)], []) :=
  c8_download_skips_existing (fun _ => DlOutcome.fetchError) [("a.tar.gz", 42)]
    "https://dl/a.tar.gz" "a.tar.gz" 42 rfl

/-- C9: whenever `download_file` propagates an error, no file stands at the
destination path afterwards — the partially written file was removed before
the error left the function. -/
theorem c9_download_failure_removes_file (net : String → DlOutcome) (files : Files)
    (url p msg : String) (h : (download_file net files url p).1 = .error msg) :
    Files.get (download_file net files url p).2.1 p = none := by
  unfold download_file at h ⊢
  cases hg : Files.get files p with
  | some c => simp [hg] at h
  | none =>
    simp only [hg] at h ⊢
    cases hn : net url with
    | ok c => simp [hn] at h
    | fetchError => simp only [hn]; exact hg
    | writeError mid =>
      simp only [hn]
      exact Files.get_remove (Files.put files p mid) p

/-- C9 witness: a mid-stream write failure leaves no file at the path. -/
theorem c9_download_failure_witness :
    Files.get (download_file (fun _ => DlOutcome.writeError 3) []
      "https://dl/f.bin" "f.bin").2.1 "f.bin" = none :=
  c9_download_failure_removes_file (fun _ => DlOutcome.writeError 3) []
    "https://dl/f.bin" "f.bin" "download failed" rfl

/-- C10: a missing primary file makes load return the empty default without
consulting the backup, whatever the backup holds; and `save_synced_data` is
total — under every injected failure it removes the temporary file and
returns normally. -/
theorem c10_load_missing_primary_save_total (b t : Option FileContent)
    (fault : SaveFault) (fs : StateFs) (d : JsonVal) :
    load_synced_data { primary := none, backup := b, temp := t } = defaultDoc ∧
    (save_synced_data fault fs d).temp = none := by
  refine ⟨rfl, ?_⟩
  cases fault with
  | ok => rfl
  | writeTmp => rfl
  | backupRename =>
    simp only [save_synced_data, save_synced_data_try]
    by_cases hp : fs.primary.isSome <;> simp [hp]
  | finalRename => rfl

/-- C1: the code contradicts the claim. In `envUploadFail` every community
upload attempt raises, so `retry_upload` returns an absent result for that
edition; yet the run persists version 2024.2 for the product — lines 376-390
write the record and save unconditionally. -/
theorem c1_failed_upload_still_advances_version :
    (retry_upload envUploadFail.retryCount envUploadFail.retryDelay
        (envUploadFail.uploads "c.tar.gz")).result = none ∧
    getLastVersion (productsOf (load_synced_data (mainRun envUploadFail).fs))
      "Idea Ultimate" = .ok (some (.str "2024.2")) := ⟨rfl, rfl⟩

/-- C2 counterexample: a run whose page parse raises an unrecovered
`ParseError` still ends with exit status zero — the handler of line 394 only
logs, and the entry point of lines 412-413 never sets a non-zero status. -/
theorem c2_counterexample_parse_error_exit_zero :
    envParseFail.parseResult = Except.error "ParseError" ∧
    (mainRun envParseFail).exitCode = 0 := ⟨rfl, rfl⟩

/-- C2 (amended): the process exits zero on every run whose loaded state
document is a dict — unrecovered top-level errors (parse, download, release
creation) included, and the skip path included; the one non-zero exit is the
AttributeError of line 312 when the loaded document is not a dict. -/
theorem c2_exit_code_characterization (env : MainEnv) :
    (exceptOk (setdefaultProducts (load_synced_data env.initFs)) = true →
      (mainRun env).exitCode = 0) ∧
    (exceptOk (setdefaultProducts (load_synced_data env.initFs)) = false →
      (mainRun env).exitCode = 1) := by
  cases hs : setdefaultProducts (load_synced_data env.initFs) with
  | ok d =>
    refine ⟨fun _ => ?_, fun hf => ?_⟩
    · simp only [mainRun, hs]
    · simp [exceptOk] at hf
  | error e =>
    refine ⟨fun ht => ?_, fun _ => ?_⟩
    · simp [exceptOk] at ht
    · simp only [mainRun, hs]

/-- C2 witness: the parse-failure run exits zero. -/
theorem c2_exit_zero_witness : (mainRun envParseFail).exitCode = 0 :=
  (c2_exit_code_characterization envParseFail).1 rfl

/-- C7: when the stored version for the product equals the freshly parsed
version, the run performs no artifact fetch, no release get-or-create, no
asset delete-or-upload, no state write and no commit, and the state files are
left exactly as they were. -/
theorem c7_skip_path_no_effects (env : MainEnv) (pd : PageData) (doc0 : JsonVal)
    (h1 : env.parseResult = .ok pd)
    (h2 : setdefaultProducts (load_synced_data env.initFs) = .ok doc0)
    (h3 : getLastVersion (productsOf doc0) env.productName =
      .ok (some (.str pd.version))) :
    (mainRun env).fs = env.initFs ∧
    (mainRun env).trace.all (fun e => !e.isMutation) = true := by
  have hTry : mainTry env doc0 =
      { files := env.initFiles, fs := env.initFs, trace := [.pageFetch],
        hasUpdates := false, currentVersion := none } := by
    unfold mainTry
    rw [h1, h3]
    simp [versionMatches]
  constructor
  · simp only [mainRun, h2, hTry]
  · simp only [mainRun, h2, hTry]
    simp [Event.isMutation, List.all_eq_true]
    intro x s n hmem hend hx
    subst hx
    rfl

/-- C7 witness: the skip run of `envSkip` leaves the state files untouched
and its trace holds no mutating effect. -/
theorem c7_skip_path_witness :
    (mainRun envSkip).fs = envSkip.initFs ∧
    (mainRun envSkip).trace.all (fun e => !e.isMutation) = true :=
  c7_skip_path_no_effects envSkip
    { version := "2024.1", ultimateUrl := "https://dl/u.tar.gz",
      communityUrl := "https://dl/c.tar.gz" }
    docWith20241 rfl rfl rfl

end JetBrainsSync
